import Mathlib

/-!
Shallow embedding of `src/fix_nullables.py`.

The script applies two regular-expression rewriters to file contents and
conditionally writes the result back.  Text is modelled as `List Char`.
The two patterns,

  pattern 1 (read-by-id):
    (\s+)(\w+)\s+(\w+)\s*=\s*await\s+\w+\.ReadByIdAsync\([^)]+\);
  pattern 2 (first-or-default):
    (\s+)(\w+)\s+(\w+)\s*=\s*([^;]+\.FirstOrDefault\([^)]*\));

are embedded as executable matchers that reproduce Python `re` semantics:
leftmost match, greedy quantifiers with backtracking.  For pattern 1 every
quantifier boundary is between disjoint character classes (or a literal of a
different class), so greedy maximal munch is exact and no backtracking is
needed.  For pattern 2 the `\s*` before group 4 and the `[^;]+` inside
group 4 genuinely backtrack; they are embedded as explicit descending
searches (longest attempt first), matching the engine's order.
`re.sub` scans left to right and never rescans replacement text; it is
embedded as `subAux` driven by fuel (one unit per scanned position, always
sufficient because every match consumes at least one character).
-/

namespace FixNullables

/-- Python's `\s` class on ASCII text (the script only ever sees ASCII). -/
def pyIsSpace (c : Char) : Bool :=
  c = ' ' || c = '\t' || c = '\n' || c = '\r' || c = '\x0b' || c = '\x0c'

/-- Python's `\w` class on ASCII text. -/
def pyIsWord (c : Char) : Bool :=
  c.isAlpha || c.isDigit || c = '_'

/-- Drop a literal from the front of the text, failing if it is absent. -/
def dropLit : List Char → List Char → Option (List Char)
  | [], l => some l
  | _ :: _, [] => none
  | p :: ps, c :: cs => if c = p then dropLit ps cs else none

/-- Python `str.split(sep)` for a one-character separator: all occurrences
split, empty segments kept. -/
def pySplit (sep : Char) : List Char → List (List Char)
  | [] => [[]]
  | c :: rest =>
    if c = sep then [] :: pySplit sep rest
    else
      match pySplit sep rest with
      | [] => [[c]]
      | h :: t => (c :: h) :: t

/-- Python `str.strip()`: remove whitespace from both ends. -/
def pyStrip (l : List Char) : List Char :=
  ((l.dropWhile pyIsSpace).reverse.dropWhile pyIsSpace).reverse

/-- The segment of `l` strictly between its first and second `=` (everything
after the first `=` when there is no second; empty when there is no `=`).
Stated independently of `pySplit`; used to characterise `split("=")[1]`. -/
def betweenEq (l : List Char) : List Char :=
  ((l.dropWhile (fun c => c != '=')).tail).takeWhile (fun c => c != '=')

/-- Captures of one match of the read-by-id pattern: groups 1-3, the full
matched text (group 0) and the text following the match. -/
structure MatchRBI where
  ind : List Char
  ty : List Char
  v : List Char
  g0 : List Char
  rest : List Char
deriving DecidableEq, Repr

/-- Captures of one match of the first-or-default pattern: groups 1-4 and
the text following the match (group 0 is never used by the replacer). -/
structure MatchFOD where
  ind : List Char
  ty : List Char
  v : List Char
  g4 : List Char
  rest : List Char
deriving DecidableEq, Repr

def awaitLit : List Char := "await".toList

def rbiLit : List Char := ".ReadByIdAsync(".toList

def fodLit : List Char := ".FirstOrDefault(".toList

/-- Attempt pattern 1 anchored at the start of `l`.  Every quantifier is
greedy; as all class boundaries here are disjoint, maximal munch is the
exact engine behaviour. -/
def matchRBIAt (l : List Char) : Option MatchRBI :=
  let ind := l.takeWhile pyIsSpace
  let r1 := l.dropWhile pyIsSpace
  if ind.isEmpty then none else
  let ty := r1.takeWhile pyIsWord
  let r2 := r1.dropWhile pyIsWord
  if ty.isEmpty then none else
  let ws1 := r2.takeWhile pyIsSpace
  let r3 := r2.dropWhile pyIsSpace
  if ws1.isEmpty then none else
  let v := r3.takeWhile pyIsWord
  let r4 := r3.dropWhile pyIsWord
  if v.isEmpty then none else
  let ws2 := r4.takeWhile pyIsSpace
  let r5 := r4.dropWhile pyIsSpace
  match r5 with
  | '=' :: r6 =>
    let ws3 := r6.takeWhile pyIsSpace
    let r7 := r6.dropWhile pyIsSpace
    match dropLit awaitLit r7 with
    | some r8 =>
      let ws4 := r8.takeWhile pyIsSpace
      let r9 := r8.dropWhile pyIsSpace
      if ws4.isEmpty then none else
      let w2 := r9.takeWhile pyIsWord
      let r10 := r9.dropWhile pyIsWord
      if w2.isEmpty then none else
      match dropLit rbiLit r10 with
      | some r11 =>
        let args := r11.takeWhile (fun c => c != ')')
        let r12 := r11.dropWhile (fun c => c != ')')
        if args.isEmpty then none else
        match r12 with
        | ')' :: ';' :: rest =>
          some ⟨ind, ty, v,
            ind ++ ty ++ ws1 ++ v ++ ws2 ++ '=' :: (ws3 ++ awaitLit ++ ws4 ++
              w2 ++ rbiLit ++ args ++ [')', ';']), rest⟩
        | _ => none
      | none => none
    | none => none
  | _ => none

/-- Backtracking of `[^;]+` inside group 4: try the prefix of length `k`,
then `k - 1`, ..., then `1` (greedy: longest first).  The caller passes the
length of the maximal `;`-free run, so every tried prefix is `;`-free.
A successful attempt must be followed by `.FirstOrDefault(`, a greedy
`[^)]*` run, `)` and `;`; that tail is deterministic. -/
def fodSearchK : Nat → List Char → Option (List Char × List Char)
  | 0, _ => none
  | k + 1, region =>
    match dropLit fodLit (region.drop (k + 1)) with
    | some r1 =>
      let y := r1.takeWhile (fun c => c != ')')
      match r1.dropWhile (fun c => c != ')') with
      | ')' :: ';' :: rest =>
        some (region.take (k + 1) ++ fodLit ++ y ++ [')'], rest)
      | _ => fodSearchK k region
    | none => fodSearchK k region

/-- One attempt of group 4 at a fixed start: `[^;]+` ranges over the
maximal `;`-free run, longest prefix first. -/
def fodTry (region : List Char) : Option (List Char × List Char) :=
  fodSearchK (region.takeWhile (fun c => c != ';')).length region

/-- Backtracking of the `\s*` before group 4: consume `j` whitespace
characters, trying `j`, `j - 1`, ..., `0` (greedy: longest first). -/
def fodSearchJ : Nat → List Char → Option (List Char × List Char)
  | 0, r => fodTry r
  | j + 1, r =>
    match fodTry (r.drop (j + 1)) with
    | some res => some res
    | none => fodSearchJ j r

/-- Attempt pattern 2 anchored at the start of `l`.  The prefix up to `=`
is deterministic maximal munch; the tail backtracks via `fodSearchJ`. -/
def matchFODAt (l : List Char) : Option MatchFOD :=
  let ind := l.takeWhile pyIsSpace
  let r1 := l.dropWhile pyIsSpace
  if ind.isEmpty then none else
  let ty := r1.takeWhile pyIsWord
  let r2 := r1.dropWhile pyIsWord
  if ty.isEmpty then none else
  let ws1 := r2.takeWhile pyIsSpace
  let r3 := r2.dropWhile pyIsSpace
  if ws1.isEmpty then none else
  let v := r3.takeWhile pyIsWord
  let r4 := r3.dropWhile pyIsWord
  if v.isEmpty then none else
  let r5 := r4.dropWhile pyIsSpace
  match r5 with
  | '=' :: r6 =>
    match fodSearchJ (r6.takeWhile pyIsSpace).length r6 with
    | some (g4, rest) => some ⟨ind, ty, v, g4, rest⟩
    | none => none
  | _ => none

/-- The `replacer` of `fix_read_by_id_pattern`:
`f'{indent}{type_name}? {var_name} = await
{match.group(0).split("=")[1].strip()}\n{indent}Assert.NotNull({var_name});'`.
The pattern contains a literal `=`, so `split("=")` always has a second
element; its absence is modelled by the (unreachable) default `[]`. -/
def replRBI (m : MatchRBI) : List Char :=
  m.ind ++ m.ty ++ "? ".toList ++ m.v ++ " = await ".toList ++
    pyStrip (((pySplit '=' m.g0).get? 1).getD []) ++
    '\n' :: (m.ind ++ "Assert.NotNull(".toList ++ m.v ++ ");".toList)

/-- The `replacer` of `fix_first_or_default_pattern`:
`f'{indent}{type_name}? {var_name} = {rhs};\n{indent}Assert.NotNull({var_name});'`. -/
def replFOD (m : MatchFOD) : List Char :=
  m.ind ++ m.ty ++ "? ".toList ++ m.v ++ " = ".toList ++ m.g4 ++
    ';' :: '\n' :: (m.ind ++ "Assert.NotNull(".toList ++ m.v ++ ");".toList)

/-- `re.sub`: scan left to right; at each position attempt a match; on
success emit the replacement and resume after the matched text, otherwise
keep the character and advance.  Fuel decreases once per scanned position;
since every match of either pattern consumes at least one character,
fuel equal to the text length is always sufficient. -/
def subAux (step : List Char → Option (List Char × List Char)) :
    Nat → List Char → List Char
  | 0, l => l
  | _ + 1, [] => []
  | fuel + 1, c :: rest =>
    match step (c :: rest) with
    | some pr => pr.1 ++ subAux step fuel pr.2
    | none => c :: subAux step fuel rest

def stepRBI (l : List Char) : Option (List Char × List Char) :=
  (matchRBIAt l).map (fun m => (replRBI m, m.rest))

def stepFOD (l : List Char) : Option (List Char × List Char) :=
  (matchFODAt l).map (fun m => (replFOD m, m.rest))

/-- `fix_read_by_id_pattern`: `re.sub(pattern, replacer, content)`. -/
def fix_read_by_id_pattern (content : List Char) : List Char :=
  subAux stepRBI content.length content

/-- `fix_first_or_default_pattern`: `re.sub(pattern, replacer, content)`. -/
def fix_first_or_default_pattern (content : List Char) : List Char :=
  subAux stepFOD content.length content

/-- The filesystem seen by the script: for each path either the file's
text or the message of the exception its read raises. -/
def FS : Type := List Char → Except (List Char) (List Char)

/-- Overwriting a file with new content. -/
def fsWrite (fs : FS) (p : List Char) (c : List Char) : FS :=
  fun q => if q = p then Except.ok c else fs q

def errMsg (p e : List Char) : List Char :=
  "Error processing ".toList ++ p ++ ": ".toList ++ e

/-- `process_file`: read, apply both rewriters in order, write back only on
change; returns the updated filesystem, the printed line and the returned
boolean.  The `except` clause catches the read failure, prints the message
and returns `False`; the rewriters themselves are total. -/
def process_file (fs : FS) (p : List Char) : FS × List Char × Bool :=
  match fs p with
  | Except.ok content =>
    let c2 := fix_first_or_default_pattern (fix_read_by_id_pattern content)
    if c2 ≠ content then
      (fsWrite fs p c2, "Fixed: ".toList ++ p, true)
    else
      (fs, "No changes needed: ".toList ++ p, false)
  | Except.error e => (fs, errMsg p e, false)

/-- The `for file in files` loop: every path is processed in order and the
printed lines are collected. -/
def processBatch : FS → List (List Char) → FS × List (List Char)
  | fs, [] => (fs, [])
  | fs, p :: ps =>
    let r := process_file fs p
    let rest := processBatch r.1 ps
    (rest.1, r.2.1 :: rest.2)

/-- The hardcoded file list of the `__main__` block. -/
def main_files : List (List Char) :=
  ["C:\\Code\\Durable\\src\\Test.MySql\\MySqlBatchInsertTests.cs".toList,
   "C:\\Code\\Durable\\src\\Test.MySql\\MySqlIntegrationTests.cs".toList]

/-- The whole run: the loop over `main_files`; the script body contains no
`sys.exit`, so the interpreter exits with status 0, recorded as the final
component. -/
def runMain (fs : FS) : (FS × List (List Char)) × Nat :=
  (processBatch fs main_files, 0)

/-- The three console report shapes of `process_file` for a path. -/
def isReportFor (p line : List Char) : Prop :=
  line = "Fixed: ".toList ++ p ∨
  line = "No changes needed: ".toList ++ p ∨
  ∃ e, line = errMsg p e

/-- A filesystem on which every read raises. -/
def fsErr : FS := fun _ => Except.error "boom".toList

/-- A filesystem on which every read yields the text `hi`. -/
def fsOk : FS := fun _ => Except.ok "hi".toList

/-- The concatenation of the spec's two end-to-end scenario input lines. -/
def scenarioText : List Char :=
  "    Foo bar = await repo.ReadByIdAsync(id);\n    Widget w = items.FirstOrDefault();".toList

theorem pySplit_ne_nil (sep : Char) : ∀ l : List Char, pySplit sep l ≠ []
  | [] => by simp [pySplit]
  | c :: rest => by
    by_cases h : c = sep
    · simp [pySplit, h]
    · simp only [pySplit, h, if_false]
      cases hs : pySplit sep rest <;> simp

theorem pySplit_head (sep : Char) : ∀ l : List Char,
    (pySplit sep l).get? 0 = some (l.takeWhile (fun c => c != sep))
  | [] => by simp [pySplit]
  | c :: rest => by
    by_cases h : c = sep
    · simp [pySplit, h, List.takeWhile_cons]
    · have hne : (c != sep) = true := by simp [h]
      cases hs : pySplit sep rest with
      | nil => exact absurd hs (pySplit_ne_nil sep rest)
      | cons h0 t =>
        have ih := pySplit_head sep rest
        rw [hs] at ih
        simp only [List.get?] at ih
        simp [pySplit, h, hs, List.takeWhile_cons, hne]
        exact Option.some_injective _ ih

/-- `split("=")[1]` is the text strictly between the first and second `=`
(everything after the first `=` when there is no second, empty when there
is no `=`). -/
theorem pySplit_get_one : ∀ l : List Char,
    ((pySplit '=' l).get? 1).getD [] = betweenEq l
  | [] => by simp [pySplit, betweenEq]
  | c :: rest => by
    by_cases h : c = '='
    · have ih := pySplit_head '=' rest
      simp [pySplit, betweenEq, h, List.dropWhile_cons, List.get?_eq_getElem?] at ih ⊢
      simp [ih]
    · have hne : (c != '=') = true := by simp [h]
      cases hs : pySplit '=' rest with
      | nil => exact absurd hs (pySplit_ne_nil '=' rest)
      | cons h0 t =>
        have ih := pySplit_get_one rest
        rw [hs] at ih
        simp only [List.get?] at ih
        simp [pySplit, h, hs, List.dropWhile_cons, hne]
        simpa [betweenEq, List.dropWhile_cons, hne, List.get?_eq_getElem?] using ih

/-- When no position of the text matches, `re.sub` is the identity. -/
theorem subAux_id (step : List Char → Option (List Char × List Char)) :
    ∀ (fuel : Nat) (l : List Char), (∀ t ∈ l.tails, step t = none) →
      subAux step fuel l = l
  | 0, _, _ => rfl
  | _ + 1, [], _ => rfl
  | fuel + 1, c :: rest, h => by
    have hc : step (c :: rest) = none := by
      refine h _ ?_
      rw [List.mem_tails]
    have hrest : ∀ t ∈ rest.tails, step t = none := by
      intro t ht
      refine h t ?_
      rw [List.mem_tails] at ht ⊢
      exact ht.trans (List.suffix_cons c rest)
    unfold subAux
    rw [hc]
    exact congrArg (c :: ·) (subAux_id step fuel rest hrest)

/-- Neither matcher can fire on text whose first character is not
whitespace: both patterns begin with `(\s+)`. -/
theorem matchRBIAt_nonspace (c : Char) (rest : List Char)
    (h : pyIsSpace c = false) : matchRBIAt (c :: rest) = none := by
  unfold matchRBIAt
  simp [List.takeWhile_cons, h]

theorem matchFODAt_nonspace (c : Char) (rest : List Char)
    (h : pyIsSpace c = false) : matchFODAt (c :: rest) = none := by
  unfold matchFODAt
  simp [List.takeWhile_cons, h]

/-- Every line printed by `process_file` is one of the three report shapes
for the processed path. -/
theorem report_shape (fs : FS) (p : List Char) :
    isReportFor p (process_file fs p).2.1 := by
  unfold process_file
  cases h : fs p with
  | ok content =>
    change isReportFor p
      (if fix_first_or_default_pattern (fix_read_by_id_pattern content) ≠ content then
        (fsWrite fs p (fix_first_or_default_pattern (fix_read_by_id_pattern content)),
          "Fixed: ".toList ++ p, true)
      else (fs, "No changes needed: ".toList ++ p, false)).2.1
    by_cases hc :
        fix_first_or_default_pattern (fix_read_by_id_pattern content) ≠ content
    · rw [if_pos hc]
      exact Or.inl rfl
    · rw [if_neg hc]
      exact Or.inr (Or.inl rfl)
  | error e => exact Or.inr (Or.inr ⟨e, rfl⟩)

theorem processBatch_length : ∀ (ps : List (List Char)) (fs : FS),
    ((processBatch fs ps).2).length = ps.length
  | [], _ => rfl
  | p :: ps, fs => by
    unfold processBatch
    simp [processBatch_length ps]

theorem processBatch_get :
    ∀ (ps : List (List Char)) (fs : FS) (i : Nat) (p : List Char),
    ps.get? i = some p →
    ∃ line, ((processBatch fs ps).2).get? i = some line ∧ isReportFor p line
  | [], _, i, _, h => by simp at h
  | q :: ps, fs, 0, p, h => by
    simp only [List.get?] at h
    injection h with h
    exact ⟨(process_file fs q).2.1, rfl, h ▸ report_shape fs q⟩
  | q :: ps, fs, i + 1, p, h => by
    simp only [List.get?] at h
    exact processBatch_get ps (process_file fs q).1 i p h

/-- Claim C1: the spec's scenario 1 (and the code's own comment) says the
line `    Foo bar = await repo.ReadByIdAsync(id);` is rewritten to
`    Foo? bar = await repo.ReadByIdAsync(id);` followed by
`    Assert.NotNull(bar);`.  The replacer emits the literal `await ` and
then the stripped `split("=")[1]` segment, which itself already begins with
`await`, so the code actually produces a duplicated `await await` and the
claimed output is never produced. -/
theorem claim1_read_by_id_double_await :
    fix_read_by_id_pattern "    Foo bar = await repo.ReadByIdAsync(id);".toList =
      "    Foo? bar = await await repo.ReadByIdAsync(id);\n    Assert.NotNull(bar);".toList ∧
    fix_read_by_id_pattern "    Foo bar = await repo.ReadByIdAsync(id);".toList ≠
      "    Foo? bar = await repo.ReadByIdAsync(id);\n    Assert.NotNull(bar);".toList := by
  exact ⟨rfl, by decide⟩

/-- Claim C2: the spec's scenario 2: the line
`    Widget w = items.FirstOrDefault();` is rewritten to the declaration
with the type suffixed by `?` and the right-hand side reproduced verbatim,
followed by `    Assert.NotNull(w);` with the same indentation. -/
theorem claim2_first_or_default_scenario :
    fix_first_or_default_pattern "    Widget w = items.FirstOrDefault();".toList =
      "    Widget? w = items.FirstOrDefault();\n    Assert.NotNull(w);".toList := rfl

/-- Claim C3, counterexample: the claim says the rewritten expression is
everything after the first `=` of the full match, trimmed, so on
`    Foo bar = await repo.ReadByIdAsync(id = 5);` it would keep
`await repo.ReadByIdAsync(id = 5);`.  The code keeps only the text between
the first and second `=` and additionally writes a literal `await `,
producing truncated, doubled output. -/
theorem claim3_counterexample :
    fix_read_by_id_pattern "    Foo bar = await repo.ReadByIdAsync(id = 5);".toList =
      "    Foo? bar = await await repo.ReadByIdAsync(id\n    Assert.NotNull(bar);".toList ∧
    fix_read_by_id_pattern "    Foo bar = await repo.ReadByIdAsync(id = 5);".toList ≠
      "    Foo? bar = await repo.ReadByIdAsync(id = 5);\n    Assert.NotNull(bar);".toList := by
  exact ⟨rfl, by decide⟩

/-- Claim C3, amended: for every match of the read-by-id pattern, the text
written after the `=` of the rewritten declaration is the literal `await `
followed by the text strictly between the first and second `=` of the full
matched text (everything after the first `=` when there is only one),
trimmed of surrounding whitespace. -/
theorem claim3_between_equals (l : List Char) (m : MatchRBI)
    (_h : matchRBIAt l = some m) :
    replRBI m = m.ind ++ m.ty ++ "? ".toList ++ m.v ++ " = await ".toList ++
      pyStrip (betweenEq m.g0) ++
      '\n' :: (m.ind ++ "Assert.NotNull(".toList ++ m.v ++ ");".toList) := by
  unfold replRBI
  rw [pySplit_get_one]

theorem claim3_between_equals_witness :
    replRBI ⟨"    ".toList, "Foo".toList, "bar".toList,
        "    Foo bar = await repo.ReadByIdAsync(id = 5);".toList, []⟩ =
      "    ".toList ++ "Foo".toList ++ "? ".toList ++ "bar".toList ++
        " = await ".toList ++
        pyStrip (betweenEq "    Foo bar = await repo.ReadByIdAsync(id = 5);".toList) ++
        '\n' :: ("    ".toList ++ "Assert.NotNull(".toList ++ "bar".toList ++ ");".toList) :=
  claim3_between_equals "    Foo bar = await repo.ReadByIdAsync(id = 5);".toList _ rfl

/-- Claim C4: on text in which neither pattern matches at any position,
both rewriters are the identity, and `process_file` reports
`No changes needed: <path>`, returns `False` and leaves the filesystem
untouched. -/
theorem claim4_no_match_is_identity (fs : FS) (p c : List Char)
    (hread : fs p = Except.ok c)
    (h1 : ∀ t ∈ c.tails, matchRBIAt t = none)
    (h2 : ∀ t ∈ c.tails, matchFODAt t = none) :
    fix_first_or_default_pattern (fix_read_by_id_pattern c) = c ∧
    process_file fs p = (fs, "No changes needed: ".toList ++ p, false) := by
  have e1 : fix_read_by_id_pattern c = c := by
    refine subAux_id _ _ _ ?_
    intro t ht
    simp [stepRBI, h1 t ht]
  have e2 : fix_first_or_default_pattern c = c := by
    refine subAux_id _ _ _ ?_
    intro t ht
    simp [stepFOD, h2 t ht]
  refine ⟨by rw [e1, e2], ?_⟩
  unfold process_file
  rw [hread]
  change (if fix_first_or_default_pattern (fix_read_by_id_pattern c) ≠ c then
      (fsWrite fs p (fix_first_or_default_pattern (fix_read_by_id_pattern c)),
        "Fixed: ".toList ++ p, true)
    else (fs, "No changes needed: ".toList ++ p, false)) = _
  simp [e1, e2]

theorem claim4_witness :
    fix_first_or_default_pattern (fix_read_by_id_pattern "hi".toList) = "hi".toList ∧
    process_file fsOk "a.cs".toList =
      (fsOk, "No changes needed: ".toList ++ "a.cs".toList, false) :=
  claim4_no_match_is_identity fsOk "a.cs".toList "hi".toList rfl
    (by decide) (by decide)

/-- Claim C5, counterexample: the second application of the two rewriters
is claimed to change nothing on any already-transformed text, but the
first-or-default rewrite of `    T v = foo( a b = c).FirstOrDefault();`
still contains the fragment ` a b = c).FirstOrDefault();`, which the
pattern matches again, so a second pass rewrites the text further. -/
theorem claim5_counterexample :
    fix_first_or_default_pattern (fix_read_by_id_pattern
      (fix_first_or_default_pattern (fix_read_by_id_pattern
        "    T v = foo( a b = c).FirstOrDefault();".toList))) ≠
    fix_first_or_default_pattern (fix_read_by_id_pattern
      "    T v = foo( a b = c).FirstOrDefault();".toList) := by decide

set_option maxRecDepth 100000 in
/-- Claim C5, amended: a second application of both rewriters changes
nothing on the transformed text of the spec's end-to-end scenarios; the
property does not hold for all inputs (see the counterexample, whose
right-hand side contains a parenthesized `word word = ...` fragment). -/
theorem claim5_scenarios_idempotent :
    fix_first_or_default_pattern (fix_read_by_id_pattern
      (fix_first_or_default_pattern (fix_read_by_id_pattern scenarioText))) =
    fix_first_or_default_pattern (fix_read_by_id_pattern scenarioText) := rfl

/-- Claim C6, counterexample: the two rewriters are claimed to be
order-independent because no statement can match both patterns, but
`    T v = await r.ReadByIdAsync(x.FirstOrDefault(y);` (an unbalanced but
matchable right-hand side) matches both, and the two application orders
produce different texts. -/
theorem claim6_counterexample :
    fix_first_or_default_pattern (fix_read_by_id_pattern
      "    T v = await r.ReadByIdAsync(x.FirstOrDefault(y);".toList) ≠
    fix_read_by_id_pattern (fix_first_or_default_pattern
      "    T v = await r.ReadByIdAsync(x.FirstOrDefault(y);".toList) := by decide

set_option maxRecDepth 100000 in
/-- Claim C6, amended: the two application orders agree on the spec's
end-to-end scenario text (and generally whenever no statement matches both
patterns); they are not mutually exclusive for all inputs. -/
theorem claim6_scenarios_commute :
    fix_first_or_default_pattern (fix_read_by_id_pattern scenarioText) =
    fix_read_by_id_pattern (fix_first_or_default_pattern scenarioText) := rfl

/-- Claim C7: when the read of a path fails, `process_file` prints
`Error processing <path>: <message>`, returns `False`, and (being a total
function of the embedding) lets no exception escape. -/
theorem claim7_read_error_reported (fs : FS) (p e : List Char)
    (h : fs p = Except.error e) :
    process_file fs p = (fs, errMsg p e, false) := by
  unfold process_file
  rw [h]

theorem claim7_read_error_reported_witness :
    process_file fsErr "f.cs".toList =
      (fsErr, errMsg "f.cs".toList "boom".toList, false) :=
  claim7_read_error_reported fsErr "f.cs".toList "boom".toList rfl

/-- Claim C8: for every filesystem (hence every combination of per-file
outcomes) the main loop emits one report line per hardcoded path, in
order, and the process exits with status 0; an error on one file never
shortens the batch. -/
theorem claim8_batch_never_aborts (fs : FS) :
    (runMain fs).2 = 0 ∧
    ((runMain fs).1.2).length = main_files.length ∧
    ∀ i p, main_files.get? i = some p →
      ∃ line, ((runMain fs).1.2).get? i = some line ∧ isReportFor p line := by
  refine ⟨rfl, processBatch_length main_files fs, ?_⟩
  intro i p h
  exact processBatch_get main_files fs i p h

theorem claim8_batch_never_aborts_witness :
    ∃ line, ((runMain fsErr).1.2).get? 0 = some line ∧
      isReportFor "C:\\Code\\Durable\\src\\Test.MySql\\MySqlBatchInsertTests.cs".toList line :=
  (claim8_batch_never_aborts fsErr).2.2 0 _ rfl

/-- Claim C9: on the error path `process_file` never opens the file for
writing: when the read raises, the returned filesystem is exactly the
input one (the rewriters themselves are total, so the read is the only
source of exceptions before the write). -/
theorem claim9_error_leaves_fs_unchanged (fs : FS) (p e : List Char)
    (h : fs p = Except.error e) :
    (process_file fs p).1 = fs := by
  unfold process_file
  rw [h]

theorem claim9_error_leaves_fs_unchanged_witness :
    (process_file fsErr "g.cs".toList).1 = fsErr :=
  claim9_error_leaves_fs_unchanged fsErr "g.cs".toList "boom".toList rfl

/-- Claim C10: both patterns begin with `(\s+)`, so no match can start at
a non-whitespace character; in particular a target-shaped statement at the
very start of the text, with no leading whitespace, is matched by neither
rewriter and both leave it unchanged. -/
theorem claim10_leading_whitespace_required :
    (∀ c rest, pyIsSpace c = false → matchRBIAt (c :: rest) = none) ∧
    (∀ c rest, pyIsSpace c = false → matchFODAt (c :: rest) = none) ∧
    fix_read_by_id_pattern "Foo bar = await repo.ReadByIdAsync(id);".toList =
      "Foo bar = await repo.ReadByIdAsync(id);".toList ∧
    fix_first_or_default_pattern "Foo bar = await repo.ReadByIdAsync(id);".toList =
      "Foo bar = await repo.ReadByIdAsync(id);".toList ∧
    fix_read_by_id_pattern "Widget w = items.FirstOrDefault();".toList =
      "Widget w = items.FirstOrDefault();".toList ∧
    fix_first_or_default_pattern "Widget w = items.FirstOrDefault();".toList =
      "Widget w = items.FirstOrDefault();".toList :=
  ⟨matchRBIAt_nonspace, matchFODAt_nonspace, rfl, rfl, rfl, rfl⟩

theorem claim10_leading_whitespace_required_witness :
    matchRBIAt ('F' :: "oo bar = await repo.ReadByIdAsync(id);".toList) = none ∧
    matchFODAt ('W' :: "idget w = items.FirstOrDefault();".toList) = none :=
  ⟨claim10_leading_whitespace_required.1 'F' _ (by decide),
   claim10_leading_whitespace_required.2.1 'W' _ (by decide)⟩

end FixNullables
